import Mathlib

/-
  Verification development for the whois-ips repository.

  The repository resolves a company handle into registered IP address
  ranges by querying a WHOIS REST endpoint and parsing the returned XML.
  The embedding below models, from the source:
    * the IP address decoder (Rust std `IpAddr::from_str`), used by
      `src/xmlparser.rs` via `StdWhoisXmlParser::parse_ip`;
    * the result model (`WhoisIpResult`, `WhoisResult` in `src/main.rs`);
    * the streaming XML-event parser `StdWhoisXmlParser::parse_content`
      of `src/xmlparser.rs` (the canonical revision) and the older
      variant kept in `src/main.rs`;
    * the HTTP client error mapping of `src/httpclient.rs`;
    * the query client `WhoisCompanyIpsClient::get` of `src/main.rs`.

  The XML tokenizer itself is the external `xml` crate: the embedded
  parser therefore consumes the stream of reader items (events or reader
  errors) that the crate produces, exactly as the Rust `for elm in parser`
  loop does.
-/

namespace WhoisIps

/-! ## IP address model (Rust std `IpAddr`) -/

/-- Typed IP address: `V4` carries the four octets, `V6` the eight
16-bit groups, mirroring Rust `std::net::IpAddr`. -/
inductive IpAddr where
  | v4 (a b c d : Nat)
  | v6 (g0 g1 g2 g3 g4 g5 g6 g7 : Nat)
deriving DecidableEq, Repr

/-- Decimal digit test on a character code (ASCII 48..57). -/
def isDecDigit (c : Char) : Bool :=
  48 ≤ c.toNat && c.toNat ≤ 57

/-- Value of a list of decimal digits, most significant first. -/
def decVal (cs : List Char) : Nat :=
  cs.foldl (fun n c => n * 10 + (c.toNat - 48)) 0

/-- Hex digit value of a character, if it is one. -/
def hexVal (c : Char) : Option Nat :=
  if 48 ≤ c.toNat && c.toNat ≤ 57 then some (c.toNat - 48)
  else if 97 ≤ c.toNat && c.toNat ≤ 102 then some (c.toNat - 87)
  else if 65 ≤ c.toNat && c.toNat ≤ 70 then some (c.toNat - 55)
  else none

/-- Split a character list on a separator character; like Rust's
`split`, `n` separators yield `n + 1` (possibly empty) pieces. -/
def splitOnSep (sep : Char) : List Char → List (List Char)
  | [] => [[]]
  | c :: rest =>
    let r := splitOnSep sep rest
    if c = sep then [] :: r
    else
      match r with
      | h :: t => (c :: h) :: t
      | [] => [[c]]

/-- One dotted-decimal IPv4 octet, as accepted by Rust std
`read_number(10, Some(3), allow_zero_prefix = false)`: 1 to 3 decimal
digits, no leading zero on a multi-digit octet, value at most 255. -/
def parseIpv4Octet (cs : List Char) : Option Nat :=
  if cs.isEmpty then none
  else if cs.length > 3 then none
  else if !(cs.all isDecDigit) then none
  else if cs.length > 1 && cs.headD ' ' = '0' then none
  else
    let n := decVal cs
    if n ≤ 255 then some n else none

/-- Dotted-decimal IPv4 parse (Rust std `read_ipv4_addr`): exactly four
octets separated by dots, the whole input consumed. -/
def ipv4FromChars (cs : List Char) : Option IpAddr :=
  match ((splitOnSep '.' cs).mapM parseIpv4Octet) with
  | some [a, b, c, d] => some (.v4 a b c d)
  | _ => none

/-- One IPv6 group: 1 to 4 hex digits (leading zeros allowed), as in
Rust std `read_number(16, Some(4), allow_zero_prefix = true)`. -/
def parseHexGroup (cs : List Char) : Option Nat :=
  if cs.isEmpty then none
  else if cs.length > 4 then none
  else
    match cs.mapM hexVal with
    | some ds => some (ds.foldl (fun n d => n * 16 + d) 0)
    | none => none

/-- Parse a run of colon-separated IPv6 group tokens; when `allowV4` is
set the final token may instead be an embedded dotted IPv4 address,
contributing two 16-bit groups (Rust std restricts the embedded IPv4 to
the trailing position). -/
def parseGroups (allowV4 : Bool) : List (List Char) → Option (List Nat)
  | [] => some []
  | [p] =>
    match parseHexGroup p with
    | some g => some [g]
    | none =>
      if allowV4 then
        match ipv4FromChars p with
        | some (.v4 a b c d) => some [a * 256 + b, c * 256 + d]
        | _ => none
      else none
  | p :: q :: rest =>
    match parseHexGroup p, parseGroups allowV4 (q :: rest) with
    | some g, some gs => some (g :: gs)
    | _, _ => none

/-- Split at the first `::` occurrence, if any. -/
def breakDoubleColon : List Char → Option (List Char × List Char)
  | [] => none
  | [_] => none
  | a :: b :: rest =>
    if a = ':' && b = ':' then some ([], rest)
    else
      match breakDoubleColon (b :: rest) with
      | some (l, r) => some (a :: l, r)
      | none => none

/-- Whether `::` occurs in the list. -/
def hasDoubleColon : List Char → Bool
  | a :: b :: rest => (a = ':' && b = ':') || hasDoubleColon (b :: rest)
  | _ => false

/-- Assemble eight 16-bit groups into a `V6` address. -/
def mkV6 : List Nat → Option IpAddr
  | [a, b, c, d, e, f, g, h] => some (.v6 a b c d e f g h)
  | _ => none

/-- Colon-hex IPv6 parse mirroring Rust std `read_ipv6_addr`: either
eight groups with no `::` (an embedded trailing IPv4 counting as two),
or a single `::` with head and tail groups totalling at most seven (the
`::` stands for at least one zero group); an embedded IPv4 may only end
the tail. -/
def ipv6FromChars (cs : List Char) : Option IpAddr :=
  match breakDoubleColon cs with
  | none =>
    match parseGroups true (splitOnSep ':' cs) with
    | some gs => if gs.length = 8 then mkV6 gs else none
    | none => none
  | some (l, r) =>
    if hasDoubleColon r then none
    else
      let lparts := if l.isEmpty then [] else splitOnSep ':' l
      let rparts := if r.isEmpty then [] else splitOnSep ':' r
      match parseGroups false lparts, parseGroups true rparts with
      | some lgs, some rgs =>
        if lgs.length + rgs.length ≤ 7 then
          mkV6 (lgs ++ List.replicate (8 - lgs.length - rgs.length) 0 ++ rgs)
        else none
      | _, _ => none

/-- Rust std `IpAddr::from_str`: try IPv4, then IPv6. -/
def ipAddrFromStr (s : String) : Option IpAddr :=
  match ipv4FromChars s.data with
  | some a => some a
  | none => ipv6FromChars s.data

/-! ## Result model (`src/main.rs`, `WhoisIpResult` / `WhoisResult`) -/

/-- One registered network range: `struct WhoisIpResult` of `src/main.rs`. -/
structure WhoisIpResult where
  name : String
  start_ip : IpAddr
  end_ip : IpAddr
deriving DecidableEq, Repr

/-- The parser output: `struct WhoisResult` of `src/main.rs`. -/
structure WhoisResult where
  ips : List WhoisIpResult
deriving DecidableEq, Repr

/-! ## Error types and outcomes -/

/-- `enum ParseError` of `src/xmlparser.rs`. -/
inductive ParseError where
  | XmlError (s : String)
  | IpAddrError (s : String)
  | LimitExceeded
deriving DecidableEq, Repr

/-- Outcome of running a piece of Rust code that can return a value,
return an error, or panic (`unwrap` / `panic!` with the given message). -/
inductive POut (ε α : Type) where
  | ok (a : α)
  | err (e : ε)
  | panic (msg : String)
deriving DecidableEq, Repr

/-- Whether an outcome is a success. -/
def POut.isOk {ε α : Type} : POut ε α → Bool
  | .ok _ => true
  | _ => false

/-- Whether an outcome is a panic. -/
def POut.isPanic {ε α : Type} : POut ε α → Bool
  | .panic _ => true
  | _ => false

/-- Message of Rust's `Option::unwrap` panic on `None`. -/
def unwrapNoneMsg : String := "called `Option::unwrap()` on a `None` value"

/-- Message of the explicit panic in `parse_content` on a CData event. -/
def cdataPanicMsg : String := "XML parser returned CData. This should never happen"

/-! ## XML reader items (the external `xml` crate's event stream) -/

/-- One XML attribute (`OwnedAttribute`): local name and value. -/
structure Attr where
  local_name : String
  value : String
deriving DecidableEq, Repr

/-- The `xml` crate's reader events, as matched by `parse_content`. -/
inductive XmlEvent where
  | startDocument
  | endDocument
  | processingInstruction (s : String)
  | startElement (local_name : String) (attributes : List Attr)
  | endElement
  | characters (s : String)
  | cdata (s : String)
  | whitespace (s : String)
  | comment (s : String)
deriving DecidableEq, Repr

/-- One item pulled from the reader iterator: an event, or a reader
error (carrying its display text). -/
inductive XmlItem where
  | ev (e : XmlEvent)
  | readErr (msg : String)
deriving DecidableEq, Repr

/-! ## The canonical parser (`src/xmlparser.rs`) -/

/-- `StdWhoisXmlParser::parse_ip`: decode a textual address, mapping a
decode failure to `IpAddrError` with the std diagnostic and the
offending token (Rust `format!("Failed to parse IP address: {:} ({:})", e, ip_str)`,
where `e` displays as `invalid IP address syntax`). -/
def parse_ip (ip_str : String) : Except ParseError IpAddr :=
  match ipAddrFromStr ip_str with
  | some ip => .ok ip
  | none =>
    .error (.IpAddrError
      ("Failed to parse IP address: invalid IP address syntax (" ++ ip_str ++ ")"))

/-- The offending-token error message produced by `parse_ip`. -/
def ipErrMsg (tok : String) : String :=
  "Failed to parse IP address: invalid IP address syntax (" ++ tok ++ ")"

/-- The attribute loop of `StdWhoisXmlParser::parse_content_netref`,
threading the three accumulators `range_name`, `start_ip`, `end_ip`;
after the loop the Rust code builds the record with `.unwrap()` on each
accumulator, which panics when the accumulator is still `None`
(`name` is unwrapped first, then `start_ip`, then `end_ip`). -/
def netrefLoop : List Attr → Option String → Option IpAddr → Option IpAddr →
    POut ParseError WhoisIpResult
  | [], range_name, start_ip, end_ip =>
    match range_name with
    | none => .panic unwrapNoneMsg
    | some n =>
      match start_ip with
      | none => .panic unwrapNoneMsg
      | some s =>
        match end_ip with
        | none => .panic unwrapNoneMsg
        | some e => .ok ⟨n, s, e⟩
  | a :: rest, range_name, start_ip, end_ip =>
    if a.local_name = "name" then
      netrefLoop rest (some a.value) start_ip end_ip
    else if a.local_name = "startAddress" then
      match parse_ip a.value with
      | .ok ip => netrefLoop rest range_name (some ip) end_ip
      | .error e => .err e
    else if a.local_name = "endAddress" then
      match parse_ip a.value with
      | .ok ip => netrefLoop rest range_name start_ip (some ip)
      | .error e => .err e
    else
      netrefLoop rest range_name start_ip end_ip

/-- `StdWhoisXmlParser::parse_content_netref` of `src/xmlparser.rs`:
fold the attributes starting from empty accumulators. -/
def parse_content_netref (attributes : List Attr) : POut ParseError WhoisIpResult :=
  netrefLoop attributes none none none

/-- The mutable state of the `parse_content` loop: the accumulated
`ip_results` vector and the `is_inside_limit` flag. -/
structure ParserState where
  ips : List WhoisIpResult
  is_inside_limit : Bool
deriving DecidableEq, Repr

/-- Result of one loop iteration: continue with an updated state, or
terminate the whole parse with an outcome (early `return` or panic). -/
inductive StepOut (ε : Type) where
  | cont (st : ParserState)
  | stop (r : POut ε WhoisResult)
deriving DecidableEq, Repr

/-- The body of the `for elm in parser` loop in
`StdWhoisXmlParser::parse_content` (`src/xmlparser.rs`), one item at a
time. The Rust `match` on the element name has arms `"netRef"`,
`"limitExceeded"` and a wildcard; the `match` on limit-marker text has
arms `"false"` and a wildcard returning `LimitExceeded`; a CData event
panics; a reader error returns `XmlError`; all other events fall to the
wildcard arm and leave the state unchanged. -/
def parse_step (st : ParserState) (item : XmlItem) : StepOut ParseError :=
  match item with
  | .readErr e => .stop (.err (.XmlError e))
  | .ev e =>
    match e with
    | .startElement nm attributes =>
      if nm = "netRef" then
        match parse_content_netref attributes with
        | .ok r => .cont ⟨st.ips ++ [r], st.is_inside_limit⟩
        | .err pe => .stop (.err pe)
        | .panic m => .stop (.panic m)
      else if nm = "limitExceeded" then
        .cont ⟨st.ips, true⟩
      else
        .cont st
    | .characters s =>
      if st.is_inside_limit then
        if s = "false" then .cont st
        else .stop (.err .LimitExceeded)
      else
        .cont st
    | .endElement => .cont ⟨st.ips, false⟩
    | .cdata _ => .stop (.panic cdataPanicMsg)
    | _ => .cont st

/-- Run the loop over a list of reader items from a given state,
stopping early when an iteration stops. -/
def parse_steps : List XmlItem → ParserState → StepOut ParseError
  | [], st => .cont st
  | item :: rest, st =>
    match parse_step st item with
    | .cont st2 => parse_steps rest st2
    | .stop r => .stop r

/-- The whole loop of `parse_content`: on normal loop exit return
`Ok(WhoisResult::new(ip_results))`. -/
def parse_run (items : List XmlItem) (st : ParserState) : POut ParseError WhoisResult :=
  match items with
  | [] => .ok ⟨st.ips⟩
  | item :: rest =>
    match parse_step st item with
    | .cont st2 => parse_run rest st2
    | .stop r => r

/-- `StdWhoisXmlParser::parse_content` (`src/xmlparser.rs`): fresh
`ip_results` vector and `is_inside_limit = false`, then the loop over
the reader's items. -/
def parse_content (xml : List XmlItem) : POut ParseError WhoisResult :=
  parse_run xml ⟨[], false⟩

/-- `struct StdWhoisXmlParser` — it has no fields. -/
structure StdWhoisXmlParser where
deriving DecidableEq, Repr

/-- `StdWhoisXmlParser::new`. -/
def StdWhoisXmlParser.new : StdWhoisXmlParser := ⟨⟩

/-- The trait method `parse_content` on a parser instance; the Rust
implementation never touches `self`. -/
def StdWhoisXmlParser.parse_content (_self : StdWhoisXmlParser)
    (xml : List XmlItem) : POut ParseError WhoisResult :=
  WhoisIps.parse_content xml

/-! ## The older parser revision kept in `src/main.rs` -/

namespace MainRs

/-- `enum ParseError` of `src/main.rs`: only an XML error (wrapping the
reader error) and the limit case; there is no `IpAddrError` variant. -/
inductive ParseError where
  | XmlError (e : String)
  | LimitExceeded
deriving DecidableEq, Repr

/-- Message of Rust's `Result::unwrap` panic on the `AddrParseError`
produced by `IpAddr::from_str` in `src/main.rs`'s
`parse_content_netref`. -/
def ipUnwrapMsg : String :=
  "called `Result::unwrap()` on an `Err` value: AddrParseError(())"

/-- The attribute loop of `src/main.rs`'s `parse_content_netref`: like
the canonical one, but a failed address decode is `.unwrap()`ed, so it
panics instead of returning a typed error. -/
def netrefLoop : List Attr → Option String → Option IpAddr → Option IpAddr →
    POut ParseError WhoisIpResult
  | [], range_name, start_ip, end_ip =>
    match range_name with
    | none => .panic unwrapNoneMsg
    | some n =>
      match start_ip with
      | none => .panic unwrapNoneMsg
      | some s =>
        match end_ip with
        | none => .panic unwrapNoneMsg
        | some e => .ok ⟨n, s, e⟩
  | a :: rest, range_name, start_ip, end_ip =>
    if a.local_name = "name" then
      netrefLoop rest (some a.value) start_ip end_ip
    else if a.local_name = "startAddress" then
      match ipAddrFromStr a.value with
      | some ip => netrefLoop rest range_name (some ip) end_ip
      | none => .panic ipUnwrapMsg
    else if a.local_name = "endAddress" then
      match ipAddrFromStr a.value with
      | some ip => netrefLoop rest range_name start_ip (some ip)
      | none => .panic ipUnwrapMsg
    else
      netrefLoop rest range_name start_ip end_ip

/-- `StdWhoisXmlParser::parse_content_netref` of `src/main.rs`. -/
def parse_content_netref (attributes : List Attr) : POut ParseError WhoisIpResult :=
  netrefLoop attributes none none none

/-- Loop body of `src/main.rs`'s `parse_content`; same structure as
the canonical one. In the Rust source the netref result is
`.unwrap()`ed (its declared error type `xml::reader::Error` is never
constructed by the callee), so only `ok` and `panic` reach the loop. -/
def parse_step (st : ParserState) (item : XmlItem) : StepOut ParseError :=
  match item with
  | .readErr e => .stop (.err (.XmlError e))
  | .ev e =>
    match e with
    | .startElement nm attributes =>
      if nm = "netRef" then
        match parse_content_netref attributes with
        | .ok r => .cont ⟨st.ips ++ [r], st.is_inside_limit⟩
        | .err pe => .stop (.err pe)
        | .panic m => .stop (.panic m)
      else if nm = "limitExceeded" then
        .cont ⟨st.ips, true⟩
      else
        .cont st
    | .characters s =>
      if st.is_inside_limit then
        if s = "false" then .cont st
        else .stop (.err .LimitExceeded)
      else
        .cont st
    | .endElement => .cont ⟨st.ips, false⟩
    | .cdata _ => .stop (.panic cdataPanicMsg)
    | _ => .cont st

/-- The whole loop of `src/main.rs`'s `parse_content`. -/
def parse_run (items : List XmlItem) (st : ParserState) : POut ParseError WhoisResult :=
  match items with
  | [] => .ok ⟨st.ips⟩
  | item :: rest =>
    match parse_step st item with
    | .cont st2 => parse_run rest st2
    | .stop r => r

/-- `StdWhoisXmlParser::parse_content` of `src/main.rs`. -/
def parse_content (xml : List XmlItem) : POut ParseError WhoisResult :=
  parse_run xml ⟨[], false⟩

end MainRs

/-! ## HTTP retrieval client (`src/httpclient.rs`) -/

namespace HttpRs

/-- `enum HttpClientError` of `src/httpclient.rs`. -/
inductive HttpClientError where
  | HttpError (s : String)
  | Unknown (s : String)
deriving DecidableEq, Repr

/-- A hyper response as far as `get_content` inspects it: the status
code and the body (which downstream reads as an XML reader stream). -/
structure Response where
  status : Nat
  body : List XmlItem
deriving DecidableEq, Repr

/-- Display of a hyper `StatusCode` (`format!("{}", status)`): the
numeric code followed by the canonical reason phrase; the table below
covers the codes exercised here. -/
def statusDisplay (code : Nat) : String :=
  toString code ++
    (if code = 200 then " OK"
     else if code = 201 then " Created"
     else if code = 204 then " No Content"
     else if code = 404 then " Not Found"
     else if code = 500 then " Internal Server Error"
     else "")

/-- `StdWhoisHttpClient::get_content` of `src/httpclient.rs`, as a
function of the transport-level outcome of `self.client.get(url).send()`
(`Err` carries the hyper error's display text): a transport failure maps
to `Unknown`, a response with `status != StatusCode::Ok` (i.e. not
exactly 200) maps to `HttpError` carrying the formatted status, and a
200 response is returned as the body stream. -/
def get_content (send_result : Except String Response) : Except HttpClientError Response :=
  match send_result with
  | .error e => .error (.Unknown e)
  | .ok response =>
    if response.status ≠ 200 then
      .error (.HttpError ("HTTP Error: " ++ statusDisplay response.status))
    else
      .ok response

end HttpRs

/-! ## Query client (`src/main.rs`, `WhoisCompanyIpsClient::get`) -/

/-- `WhoisCompanyIpsClient::get` of `src/main.rs`, as a function of the
HTTP collaborator (modelled as a function from the built URL to the
transport outcome, `Err` carrying the hyper error's display text): the
URL is formatted from the company handle; a failed HTTP call returns
`Err("Fail".to_string())`; a failed parse also returns
`Err("Fail".to_string())`; a successful parse is returned as `Ok`.
A parser panic propagates. -/
def WhoisCompanyIpsClient.get
    (http_get_content : String → Except String (List XmlItem))
    (company : String) : POut String WhoisResult :=
  let url := "http://whois.arin.net/rest/org/" ++ company ++ "/nets"
  match http_get_content url with
  | .error _ => .err "Fail"
  | .ok body =>
    match MainRs.parse_content body with
    | .ok r => .ok r
    | .err _ => .err "Fail"
    | .panic m => .panic m

/-! ## Well-formed input documents

The XML tokenizer is the external `xml` crate; the fixtures in the
repository's tests fix the event streams it produces for the ARIN
response shape. The constructions below build such streams: a document
is a prologue (start document, stylesheet processing instruction, the
`nets` root element), a body of range records and limit markers, and an
epilogue closing the root. They mirror the test fixtures of
`src/xmlparser.rs` event for event. -/

/-- The textual fields of one `netRef` range record as they appear in
the document: the `name`, `startAddress` and `endAddress` attribute
values. -/
structure RawRecord where
  name : String
  startAddress : String
  endAddress : String
deriving DecidableEq, Repr

/-- The attribute list of a `netRef` element, in the fixtures' order
(`endAddress`, `startAddress`, `handle`, `name`). -/
def recordAttrs (r : RawRecord) : List Attr :=
  [⟨"endAddress", r.endAddress⟩, ⟨"startAddress", r.startAddress⟩,
   ⟨"handle", "NET-162-125-0-0-1"⟩, ⟨"name", r.name⟩]

/-- The reader items of one `netRef` record: indentation whitespace,
the start element with its attributes, its text content (the record's
REST URL), and the end element. -/
def recordEvents (r : RawRecord) : List XmlItem :=
  [.ev (.whitespace "\n  "),
   .ev (.startElement "netRef" (recordAttrs r)),
   .ev (.characters "https://whois.arin.net/rest/net/NET-162-125-0-0-1"),
   .ev .endElement]

/-- The reader items of the `limitExceeded` marker element with text
content `t`. -/
def limitEvents (t : String) : List XmlItem :=
  [.ev (.whitespace "\n  "),
   .ev (.startElement "limitExceeded" [⟨"limit", "256"⟩]),
   .ev (.characters t),
   .ev .endElement]

/-- One body item of a document: a range record or a limit marker. -/
inductive DocItem where
  | record (r : RawRecord)
  | limitMarker (t : String)
deriving DecidableEq, Repr

/-- Reader items of one body item. -/
def itemEvents : DocItem → List XmlItem
  | .record r => recordEvents r
  | .limitMarker t => limitEvents t

/-- Reader items of a document body. -/
def docBody : List DocItem → List XmlItem
  | [] => []
  | i :: rest => itemEvents i ++ docBody rest

/-- Wrap a body in the document prologue and epilogue. -/
def docWrap (inner : List XmlItem) : List XmlItem :=
  [.ev .startDocument,
   .ev (.processingInstruction "xml-stylesheet"),
   .ev (.startElement "nets"
     [⟨"inaccuracyReportUrl", "https://www.arin.net/public/whoisinaccuracy/index.xhtml"⟩,
      ⟨"termsOfUse", "https://www.arin.net/whois_tou.html"⟩])]
  ++ inner ++
  [.ev (.whitespace "\n"), .ev .endElement, .ev .endDocument]

/-- The full reader-item stream of a document with the given body. -/
def docEvents (items : List DocItem) : List XmlItem :=
  docWrap (docBody items)

/-- The range a well-formed record denotes: its name together with its
two decoded endpoints; `none` when either endpoint does not decode. -/
def rawToResult (r : RawRecord) : Option WhoisIpResult :=
  match ipAddrFromStr r.startAddress, ipAddrFromStr r.endAddress with
  | some s, some e => some ⟨r.name, s, e⟩
  | _, _ => none

/-! ## Loop lemmas -/

theorem parse_steps_append (xs ys : List XmlItem) (st : ParserState) :
    parse_steps (xs ++ ys) st =
      match parse_steps xs st with
      | .cont st2 => parse_steps ys st2
      | .stop r => .stop r := by
  induction xs generalizing st with
  | nil => simp [parse_steps]
  | cons x xs ih =>
    simp only [List.cons_append, parse_steps]
    cases parse_step st x with
    | cont st2 => exact ih st2
    | stop r => rfl

theorem parse_run_eq_steps (xs : List XmlItem) (st : ParserState) :
    parse_run xs st =
      match parse_steps xs st with
      | .cont st2 => .ok ⟨st2.ips⟩
      | .stop r => r := by
  induction xs generalizing st with
  | nil => simp [parse_run, parse_steps]
  | cons x xs ih =>
    simp only [parse_run, parse_steps]
    cases parse_step st x with
    | cont st2 => exact ih st2
    | stop r => rfl

theorem docBody_append (xs ys : List DocItem) :
    docBody (xs ++ ys) = docBody xs ++ docBody ys := by
  induction xs with
  | nil => simp [docBody]
  | cons x xs ih => simp [docBody, ih]

/-! ## Netref attribute-loop lemmas -/

theorem netref_of_raw {r : RawRecord} {w : WhoisIpResult}
    (h : rawToResult r = some w) :
    parse_content_netref (recordAttrs r) = .ok w := by
  unfold rawToResult at h
  cases hs : ipAddrFromStr r.startAddress with
  | none => rw [hs] at h; simp at h
  | some s =>
    cases he : ipAddrFromStr r.endAddress with
    | none => rw [hs, he] at h; simp at h
    | some e =>
      rw [hs, he] at h
      simp only [Option.some.injEq] at h
      subst h
      simp [parse_content_netref, recordAttrs, netrefLoop, parse_ip, hs, he]

theorem netref_bad_start {r : RawRecord} {e : IpAddr}
    (he : ipAddrFromStr r.endAddress = some e)
    (hs : ipAddrFromStr r.startAddress = none) :
    parse_content_netref (recordAttrs r)
      = .err (.IpAddrError (ipErrMsg r.startAddress)) := by
  simp [parse_content_netref, recordAttrs, netrefLoop, parse_ip, hs, he, ipErrMsg]

theorem netref_bad_end {r : RawRecord}
    (he : ipAddrFromStr r.endAddress = none) :
    parse_content_netref (recordAttrs r)
      = .err (.IpAddrError (ipErrMsg r.endAddress)) := by
  simp [parse_content_netref, recordAttrs, netrefLoop, parse_ip, he, ipErrMsg]

/-! ## Segment lemmas -/

theorem steps_record {r : RawRecord} {w : WhoisIpResult}
    (h : rawToResult r = some w) (acc : List WhoisIpResult) :
    parse_steps (recordEvents r) ⟨acc, false⟩ = .cont ⟨acc ++ [w], false⟩ := by
  simp [recordEvents, parse_steps, parse_step, netref_of_raw h]

theorem steps_record_stop {r : RawRecord} {e : ParseError}
    (h : parse_content_netref (recordAttrs r) = .err e)
    (acc : List WhoisIpResult) :
    parse_steps (recordEvents r) ⟨acc, false⟩ = .stop (.err e) := by
  simp [recordEvents, parse_steps, parse_step, h]

theorem steps_limit_false (acc : List WhoisIpResult) (b : Bool) :
    parse_steps (limitEvents "false") ⟨acc, b⟩ = .cont ⟨acc, false⟩ := by
  simp [limitEvents, parse_steps, parse_step]

theorem steps_limit_stop {t : String} (h : t ≠ "false")
    (acc : List WhoisIpResult) (b : Bool) :
    parse_steps (limitEvents t) ⟨acc, b⟩ = .stop (.err .LimitExceeded) := by
  simp [limitEvents, parse_steps, parse_step, h]

theorem steps_body_records {records : List RawRecord} {rs : List WhoisIpResult}
    (h : records.mapM rawToResult = some rs) (acc : List WhoisIpResult) :
    parse_steps (docBody (records.map .record)) ⟨acc, false⟩
      = .cont ⟨acc ++ rs, false⟩ := by
  induction records generalizing rs acc with
  | nil =>
    simp only [List.mapM_nil, pure, Option.some.injEq] at h
    subst h
    simp [docBody, parse_steps]
  | cons r rest ih =>
    rw [List.mapM_cons] at h
    cases hw : rawToResult r with
    | none => rw [hw] at h; simp at h
    | some w =>
      rw [hw] at h
      cases hws : rest.mapM rawToResult with
      | none => rw [hws] at h; simp at h
      | some ws =>
        rw [hws] at h
        simp at h
        subst h
        simp only [List.map_cons, docBody, itemEvents]
        rw [parse_steps_append, steps_record hw acc]
        simp only
        rw [ih hws (acc ++ [w])]
        simp

theorem mapM_option_length {α β : Type} (f : α → Option β) :
    ∀ (l : List α) (ys : List β), l.mapM f = some ys → ys.length = l.length
  | [], ys, h => by
    simp only [List.mapM_nil, pure, Option.some.injEq] at h
    simp [← h]
  | a :: as, ys, h => by
    rw [List.mapM_cons] at h
    cases hfa : f a with
    | none => rw [hfa] at h; simp at h
    | some b =>
      rw [hfa] at h
      cases has : as.mapM f with
      | none => rw [has] at h; simp at h
      | some bs =>
        rw [has] at h
        simp at h
        subst h
        simp [mapM_option_length f as bs has]

/-! ## Netref accumulator lemmas (attribute presence and absence) -/

theorem netrefLoop_no_name (attrs : List Attr) :
    ∀ (start_ip end_ip : Option IpAddr),
    (∀ a ∈ attrs, a.local_name ≠ "name") →
    (∀ a ∈ attrs, (a.local_name = "startAddress" ∨ a.local_name = "endAddress") →
      (ipAddrFromStr a.value).isSome) →
    netrefLoop attrs none start_ip end_ip = .panic unwrapNoneMsg := by
  induction attrs with
  | nil => intro s e _ _; simp [netrefLoop]
  | cons a rest ih =>
    intro s e hn hdec
    have hna : a.local_name ≠ "name" := hn a (List.mem_cons_self a rest)
    have hn2 : ∀ a2 ∈ rest, a2.local_name ≠ "name" :=
      fun a2 h2 => hn a2 (List.mem_cons_of_mem _ h2)
    have hdec2 : ∀ a2 ∈ rest,
        (a2.local_name = "startAddress" ∨ a2.local_name = "endAddress") →
        (ipAddrFromStr a2.value).isSome :=
      fun a2 h2 => hdec a2 (List.mem_cons_of_mem _ h2)
    by_cases hsa : a.local_name = "startAddress"
    · obtain ⟨ip, hip⟩ := Option.isSome_iff_exists.mp
        (hdec a (List.mem_cons_self a rest) (Or.inl hsa))
      simp only [netrefLoop, hna, hsa, parse_ip, hip, reduceIte]
      exact ih _ _ hn2 hdec2
    · by_cases hea : a.local_name = "endAddress"
      · obtain ⟨ip, hip⟩ := Option.isSome_iff_exists.mp
          (hdec a (List.mem_cons_self a rest) (Or.inr hea))
        simp only [netrefLoop, hna, hsa, hea, parse_ip, hip, reduceIte]
        exact ih _ _ hn2 hdec2
      · simp only [netrefLoop, hna, hsa, hea, reduceIte]
        exact ih _ _ hn2 hdec2

theorem netrefLoop_no_start (attrs : List Attr) :
    ∀ (range_name : Option String) (end_ip : Option IpAddr),
    (∀ a ∈ attrs, a.local_name ≠ "startAddress") →
    (∀ a ∈ attrs, a.local_name = "endAddress" → (ipAddrFromStr a.value).isSome) →
    netrefLoop attrs range_name none end_ip = .panic unwrapNoneMsg := by
  induction attrs with
  | nil => intro rn e _ _; cases rn <;> simp [netrefLoop]
  | cons a rest ih =>
    intro rn e hs hdec
    have hsa : a.local_name ≠ "startAddress" := hs a (List.mem_cons_self a rest)
    have hs2 : ∀ a2 ∈ rest, a2.local_name ≠ "startAddress" :=
      fun a2 h2 => hs a2 (List.mem_cons_of_mem _ h2)
    have hdec2 : ∀ a2 ∈ rest, a2.local_name = "endAddress" →
        (ipAddrFromStr a2.value).isSome :=
      fun a2 h2 => hdec a2 (List.mem_cons_of_mem _ h2)
    by_cases hna : a.local_name = "name"
    · simp only [netrefLoop, hna, reduceIte]
      exact ih _ _ hs2 hdec2
    · by_cases hea : a.local_name = "endAddress"
      · obtain ⟨ip, hip⟩ := Option.isSome_iff_exists.mp
          (hdec a (List.mem_cons_self a rest) hea)
        simp only [netrefLoop, hna, hsa, hea, parse_ip, hip, reduceIte]
        exact ih _ _ hs2 hdec2
      · simp only [netrefLoop, hna, hsa, hea, reduceIte]
        exact ih _ _ hs2 hdec2

theorem netrefLoop_no_end (attrs : List Attr) :
    ∀ (range_name : Option String) (start_ip : Option IpAddr),
    (∀ a ∈ attrs, a.local_name ≠ "endAddress") →
    (∀ a ∈ attrs, a.local_name = "startAddress" → (ipAddrFromStr a.value).isSome) →
    netrefLoop attrs range_name start_ip none = .panic unwrapNoneMsg := by
  induction attrs with
  | nil => intro rn s _ _; cases rn <;> cases s <;> simp [netrefLoop]
  | cons a rest ih =>
    intro rn s he hdec
    have hea : a.local_name ≠ "endAddress" := he a (List.mem_cons_self a rest)
    have he2 : ∀ a2 ∈ rest, a2.local_name ≠ "endAddress" :=
      fun a2 h2 => he a2 (List.mem_cons_of_mem _ h2)
    have hdec2 : ∀ a2 ∈ rest, a2.local_name = "startAddress" →
        (ipAddrFromStr a2.value).isSome :=
      fun a2 h2 => hdec a2 (List.mem_cons_of_mem _ h2)
    by_cases hna : a.local_name = "name"
    · simp only [netrefLoop, hna, reduceIte]
      exact ih _ _ he2 hdec2
    · by_cases hsa : a.local_name = "startAddress"
      · obtain ⟨ip, hip⟩ := Option.isSome_iff_exists.mp
          (hdec a (List.mem_cons_self a rest) hsa)
        simp only [netrefLoop, hna, hsa, parse_ip, hip, reduceIte]
        exact ih _ _ he2 hdec2
      · simp only [netrefLoop, hna, hsa, hea, reduceIte]
        exact ih _ _ he2 hdec2

theorem netrefLoop_not_panic (attrs : List Attr) :
    ∀ (range_name : Option String) (start_ip end_ip : Option IpAddr),
    (range_name.isSome = true ∨ ∃ a ∈ attrs, a.local_name = "name") →
    (start_ip.isSome = true ∨ ∃ a ∈ attrs, a.local_name = "startAddress") →
    (end_ip.isSome = true ∨ ∃ a ∈ attrs, a.local_name = "endAddress") →
    (netrefLoop attrs range_name start_ip end_ip).isPanic = false := by
  induction attrs with
  | nil =>
    intro rn s e hn hs he
    simp only [List.not_mem_nil, false_and, exists_false, or_false] at hn hs he
    obtain ⟨n, rfl⟩ := Option.isSome_iff_exists.mp hn
    obtain ⟨sv, rfl⟩ := Option.isSome_iff_exists.mp hs
    obtain ⟨ev, rfl⟩ := Option.isSome_iff_exists.mp he
    simp [netrefLoop, POut.isPanic]
  | cons a rest ih =>
    intro rn s e hn hs he
    have transfer : ∀ (nm : String), a.local_name ≠ nm →
        ∀ (o : Prop), (o ∨ ∃ a2 ∈ a :: rest, a2.local_name = nm) →
        (o ∨ ∃ a2 ∈ rest, a2.local_name = nm) := by
      intro nm hne o h
      rcases h with h | ⟨a2, ha2, hnm⟩
      · exact Or.inl h
      · rcases List.mem_cons.mp ha2 with rfl | hm
        · exact absurd hnm hne
        · exact Or.inr ⟨a2, hm, hnm⟩
    by_cases hna : a.local_name = "name"
    · simp only [netrefLoop, hna, reduceIte]
      refine ih (some a.value) s e (Or.inl rfl) ?_ ?_
      · exact transfer "startAddress" (by rw [hna]; decide) _ hs
      · exact transfer "endAddress" (by rw [hna]; decide) _ he
    · by_cases hsa : a.local_name = "startAddress"
      · simp only [netrefLoop, hna, hsa, parse_ip, reduceIte]
        cases hip : ipAddrFromStr a.value with
        | none => simp [POut.isPanic]
        | some ip =>
          refine ih rn (some ip) e ?_ (Or.inl rfl) ?_
          · exact transfer "name" hna _ hn
          · exact transfer "endAddress" (by rw [hsa]; decide) _ he
      · by_cases hea : a.local_name = "endAddress"
        · simp only [netrefLoop, hna, hsa, hea, parse_ip, reduceIte]
          cases hip : ipAddrFromStr a.value with
          | none => simp [POut.isPanic]
          | some ip =>
            refine ih rn s (some ip) ?_ ?_ (Or.inl rfl)
            · exact transfer "name" hna _ hn
            · exact transfer "startAddress" hsa _ hs
        · simp only [netrefLoop, hna, hsa, hea, reduceIte]
          refine ih rn s e ?_ ?_ ?_
          · exact transfer "name" hna _ hn
          · exact transfer "startAddress" hsa _ hs
          · exact transfer "endAddress" hea _ he

theorem netrefLoop_ok_start (attrs : List Attr) :
    ∀ (range_name : Option String) (start_ip end_ip : Option IpAddr)
      (w : WhoisIpResult),
    netrefLoop attrs range_name start_ip end_ip = .ok w →
    (∃ a ∈ attrs, a.local_name = "startAddress" ∧ ipAddrFromStr a.value = some w.start_ip)
    ∨ start_ip = some w.start_ip := by
  induction attrs with
  | nil =>
    intro rn s e w h
    cases rn with
    | none => simp [netrefLoop] at h
    | some n =>
      cases s with
      | none => simp [netrefLoop] at h
      | some sv =>
        cases e with
        | none => simp [netrefLoop] at h
        | some ev =>
          simp only [netrefLoop, POut.ok.injEq] at h
          subst h
          exact Or.inr rfl
  | cons a rest ih =>
    intro rn s e w h
    by_cases hna : a.local_name = "name"
    · simp only [netrefLoop, hna, reduceIte] at h
      rcases ih _ _ _ _ h with ⟨a2, hm, hp⟩ | hinit
      · exact Or.inl ⟨a2, List.mem_cons_of_mem _ hm, hp⟩
      · exact Or.inr hinit
    · by_cases hsa : a.local_name = "startAddress"
      · simp only [netrefLoop, hna, hsa, parse_ip, reduceIte] at h
        cases hip : ipAddrFromStr a.value with
        | none => rw [hip] at h; simp at h
        | some ip =>
          rw [hip] at h
          simp only at h
          rcases ih _ _ _ _ h with ⟨a2, hm, hp⟩ | hinit
          · exact Or.inl ⟨a2, List.mem_cons_of_mem _ hm, hp⟩
          · refine Or.inl ⟨a, List.mem_cons_self a rest, hsa, ?_⟩
            rw [hip]
            simpa using hinit
      · by_cases hea : a.local_name = "endAddress"
        · simp only [netrefLoop, hna, hsa, hea, parse_ip, reduceIte] at h
          cases hip : ipAddrFromStr a.value with
          | none => rw [hip] at h; simp at h
          | some ip =>
            rw [hip] at h
            simp only at h
            rcases ih _ _ _ _ h with ⟨a2, hm, hp⟩ | hinit
            · exact Or.inl ⟨a2, List.mem_cons_of_mem _ hm, hp⟩
            · exact Or.inr hinit
        · simp only [netrefLoop, hna, hsa, hea, reduceIte] at h
          rcases ih _ _ _ _ h with ⟨a2, hm, hp⟩ | hinit
          · exact Or.inl ⟨a2, List.mem_cons_of_mem _ hm, hp⟩
          · exact Or.inr hinit

theorem netrefLoop_ok_end (attrs : List Attr) :
    ∀ (range_name : Option String) (start_ip end_ip : Option IpAddr)
      (w : WhoisIpResult),
    netrefLoop attrs range_name start_ip end_ip = .ok w →
    (∃ a ∈ attrs, a.local_name = "endAddress" ∧ ipAddrFromStr a.value = some w.end_ip)
    ∨ end_ip = some w.end_ip := by
  induction attrs with
  | nil =>
    intro rn s e w h
    cases rn with
    | none => simp [netrefLoop] at h
    | some n =>
      cases s with
      | none => simp [netrefLoop] at h
      | some sv =>
        cases e with
        | none => simp [netrefLoop] at h
        | some ev =>
          simp only [netrefLoop, POut.ok.injEq] at h
          subst h
          exact Or.inr rfl
  | cons a rest ih =>
    intro rn s e w h
    by_cases hna : a.local_name = "name"
    · simp only [netrefLoop, hna, reduceIte] at h
      rcases ih _ _ _ _ h with ⟨a2, hm, hp⟩ | hinit
      · exact Or.inl ⟨a2, List.mem_cons_of_mem _ hm, hp⟩
      · exact Or.inr hinit
    · by_cases hsa : a.local_name = "startAddress"
      · simp only [netrefLoop, hna, hsa, parse_ip, reduceIte] at h
        cases hip : ipAddrFromStr a.value with
        | none => rw [hip] at h; simp at h
        | some ip =>
          rw [hip] at h
          simp only at h
          rcases ih _ _ _ _ h with ⟨a2, hm, hp⟩ | hinit
          · exact Or.inl ⟨a2, List.mem_cons_of_mem _ hm, hp⟩
          · exact Or.inr hinit
      · by_cases hea : a.local_name = "endAddress"
        · simp only [netrefLoop, hna, hsa, hea, parse_ip, reduceIte] at h
          cases hip : ipAddrFromStr a.value with
          | none => rw [hip] at h; simp at h
          | some ip =>
            rw [hip] at h
            simp only at h
            rcases ih _ _ _ _ h with ⟨a2, hm, hp⟩ | hinit
            · exact Or.inl ⟨a2, List.mem_cons_of_mem _ hm, hp⟩
            · refine Or.inl ⟨a, List.mem_cons_self a rest, hea, ?_⟩
              rw [hip]
              simpa using hinit
        · simp only [netrefLoop, hna, hsa, hea, reduceIte] at h
          rcases ih _ _ _ _ h with ⟨a2, hm, hp⟩ | hinit
          · exact Or.inl ⟨a2, List.mem_cons_of_mem _ hm, hp⟩
          · exact Or.inr hinit

/-! ## A record with no name attribute -/

/-- Attribute list of a `netRef` element that carries addresses but no
`name` attribute. -/
def namelessRecordAttrs (s e : String) : List Attr :=
  [⟨"endAddress", e⟩, ⟨"startAddress", s⟩, ⟨"handle", "NET-162-125-0-0-1"⟩]

/-- Reader items of a nameless `netRef` record. -/
def namelessRecordEvents (s e : String) : List XmlItem :=
  [.ev (.whitespace "\n  "),
   .ev (.startElement "netRef" (namelessRecordAttrs s e)),
   .ev (.characters "https://whois.arin.net/rest/net/NET-162-125-0-0-1"),
   .ev .endElement]

/-- A document whose only record is nameless, with a limit marker of
`"false"`. -/
def namelessDoc (s e : String) : List XmlItem :=
  docWrap (limitEvents "false" ++ namelessRecordEvents s e)

/-- The document prologue and epilogue leave the parse running; the
whole parse of a wrapped body is decided by the body. -/
theorem parse_content_docWrap (inner : List XmlItem) :
    parse_content (docWrap inner) =
      match parse_steps inner ⟨[], false⟩ with
      | .cont st2 => .ok ⟨st2.ips⟩
      | .stop r => r := by
  rw [parse_content, parse_run_eq_steps, docWrap]
  rw [parse_steps_append, parse_steps_append]
  have hpro : parse_steps
      [XmlItem.ev .startDocument,
       .ev (.processingInstruction "xml-stylesheet"),
       .ev (.startElement "nets"
         [⟨"inaccuracyReportUrl", "https://www.arin.net/public/whoisinaccuracy/index.xhtml"⟩,
          ⟨"termsOfUse", "https://www.arin.net/whois_tou.html"⟩])]
      ⟨[], false⟩ = .cont ⟨[], false⟩ := by
    simp [parse_steps, parse_step]
  rw [hpro]
  cases hin : parse_steps inner ⟨[], false⟩ with
  | cont st2 =>
    cases st2 with
    | mk ips b => simp [hin, parse_steps, parse_step]
  | stop r => simp [hin]

/-! ## Claims -/

/-- C1: for every input document whose limit-marker (`limitExceeded`)
element has text content that is anything other than exactly the
literal `"false"` (case-sensitive), `parse_content` returns
`ParseError::LimitExceeded`, regardless of how many (well-formed) range
records appear before or after the marker, and never returns a success
carrying a partial range list. -/
theorem claim_C1 (pre post : List RawRecord) (rsPre : List WhoisIpResult)
    (t : String) (hpre : pre.mapM rawToResult = some rsPre) (ht : t ≠ "false") :
    parse_content (docEvents (pre.map .record ++ .limitMarker t :: post.map .record))
      = .err .LimitExceeded := by
  rw [docEvents, parse_content_docWrap, docBody_append, parse_steps_append,
    steps_body_records hpre]
  simp only [docBody, itemEvents]
  rw [parse_steps_append, steps_limit_stop ht]

/-- Witness for C1: one well-formed record before a `"true"` marker and
none after it. -/
theorem claim_C1_witness :
    parse_content (docEvents
      (([⟨"DROPB", "162.125.0.0", "162.125.255.255"⟩] : List RawRecord).map .record
        ++ .limitMarker "true" :: ([] : List RawRecord).map .record))
      = .err .LimitExceeded :=
  claim_C1 [⟨"DROPB", "162.125.0.0", "162.125.255.255"⟩] []
    [⟨"DROPB", .v4 162 125 0 0, .v4 162 125 255 255⟩] "true" (by decide) (by decide)

/-- C2: for every well-formed document with N well-formed range records
(valid start and end address attribute values) and a limit-marker text
of `"false"`, `parse_content` succeeds with exactly N `AddressRange`
entries in document order, each entry's name, start and end equal to
the record's attribute values (as decoded); N = 0 yields the empty,
non-error result. -/
theorem claim_C2 (records : List RawRecord) (rs : List WhoisIpResult)
    (h : records.mapM rawToResult = some rs) :
    parse_content (docEvents (.limitMarker "false" :: records.map .record)) = .ok ⟨rs⟩
    ∧ rs.length = records.length := by
  constructor
  · rw [docEvents, parse_content_docWrap]
    simp only [docBody, itemEvents]
    rw [parse_steps_append, steps_limit_false]
    simp only
    rw [steps_body_records h]
    simp
  · exact mapM_option_length _ records rs h

/-- Witness for C2 at a two-record document (one IPv4 and one IPv6
range), and at the empty document. -/
theorem claim_C2_witness :
    (parse_content (docEvents (.limitMarker "false" ::
        ([⟨"DROPB", "162.125.0.0", "162.125.255.255"⟩,
          ⟨"DROPB6", "2620:100:6015::", "2620:100:6015:ffff:ffff:ffff:ffff:ffff"⟩]
          : List RawRecord).map .record))
      = .ok ⟨[⟨"DROPB", .v4 162 125 0 0, .v4 162 125 255 255⟩,
              ⟨"DROPB6", .v6 9760 256 24597 0 0 0 0 0,
               .v6 9760 256 24597 65535 65535 65535 65535 65535⟩]⟩
      ∧ ([⟨"DROPB", .v4 162 125 0 0, .v4 162 125 255 255⟩,
          ⟨"DROPB6", .v6 9760 256 24597 0 0 0 0 0,
           .v6 9760 256 24597 65535 65535 65535 65535 65535⟩]
          : List WhoisIpResult).length
        = ([⟨"DROPB", "162.125.0.0", "162.125.255.255"⟩,
            ⟨"DROPB6", "2620:100:6015::", "2620:100:6015:ffff:ffff:ffff:ffff:ffff"⟩]
            : List RawRecord).length)
    ∧ (parse_content (docEvents (.limitMarker "false" ::
          ([] : List RawRecord).map .record))
        = .ok ⟨[]⟩
      ∧ ([] : List WhoisIpResult).length = ([] : List RawRecord).length) :=
  ⟨claim_C2 _ _ (by decide), claim_C2 [] [] (by decide)⟩

/-- C3: for every document containing a range record whose
`startAddress` or `endAddress` attribute value fails to decode,
`parse_content` returns `ParseError::IpAddrError` whose message names
the offending token, and no success carrying a partial range is
returned (the attributes are processed in document order, `endAddress`
first in the fixture shape, so the first failing token is reported). -/
theorem claim_C3 :
    (∀ (pre : List RawRecord) (rsPre : List WhoisIpResult) (bad : RawRecord)
        (e : IpAddr) (rest : List DocItem),
      pre.mapM rawToResult = some rsPre →
      ipAddrFromStr bad.endAddress = some e →
      ipAddrFromStr bad.startAddress = none →
      parse_content (docEvents (.limitMarker "false" ::
          (pre.map .record ++ .record bad :: rest)))
        = .err (.IpAddrError (ipErrMsg bad.startAddress)))
    ∧ (∀ (pre : List RawRecord) (rsPre : List WhoisIpResult) (bad : RawRecord)
        (rest : List DocItem),
      pre.mapM rawToResult = some rsPre →
      ipAddrFromStr bad.endAddress = none →
      parse_content (docEvents (.limitMarker "false" ::
          (pre.map .record ++ .record bad :: rest)))
        = .err (.IpAddrError (ipErrMsg bad.endAddress))) := by
  constructor
  · intro pre rsPre bad e rest hpre he hs
    rw [docEvents, parse_content_docWrap]
    simp only [docBody, itemEvents, docBody_append]
    rw [parse_steps_append, steps_limit_false]
    simp only
    rw [parse_steps_append, steps_body_records hpre]
    simp only [List.nil_append]
    rw [parse_steps_append, steps_record_stop (netref_bad_start he hs)]
  · intro pre rsPre bad rest hpre he
    rw [docEvents, parse_content_docWrap]
    simp only [docBody, itemEvents, docBody_append]
    rw [parse_steps_append, steps_limit_false]
    simp only
    rw [parse_steps_append, steps_body_records hpre]
    simp only [List.nil_append]
    rw [parse_steps_append, steps_record_stop (netref_bad_end he)]

/-- Witness for C3: the fixture document whose record has
`startAddress="dropbox.com"`, and one whose `endAddress` is the
malformed token. -/
theorem claim_C3_witness :
    parse_content (docEvents (.limitMarker "false" ::
        (([] : List RawRecord).map .record ++
          .record ⟨"DROPB", "dropbox.com", "162.125.255.255"⟩ :: [])))
      = .err (.IpAddrError (ipErrMsg "dropbox.com"))
    ∧ parse_content (docEvents (.limitMarker "false" ::
        (([] : List RawRecord).map .record ++
          .record ⟨"DROPB", "162.125.0.0", "not-an-ip"⟩ :: [])))
      = .err (.IpAddrError (ipErrMsg "not-an-ip")) :=
  ⟨claim_C3.1 [] [] ⟨"DROPB", "dropbox.com", "162.125.255.255"⟩
      (.v4 162 125 255 255) [] (by decide) (by decide) (by decide),
   claim_C3.2 [] [] ⟨"DROPB", "162.125.0.0", "not-an-ip"⟩ [] (by decide) (by decide)⟩

/-- C6: for every reader stream on which the underlying XML reader
reports an error (malformed XML such as the bytes rendered from
`\x7b\x7d` or an empty stream), after any benign prefix the parse has
consumed, `parse_content` returns `ParseError::XmlError` carrying the
reader's diagnostic text, and the failure carries no ranges. -/
theorem claim_C6 (msg : String) (pre rest : List XmlItem) (st2 : ParserState)
    (h : parse_steps pre ⟨[], false⟩ = .cont st2) :
    parse_content (pre ++ .readErr msg :: rest) = .err (.XmlError msg) := by
  rw [parse_content, parse_run_eq_steps, parse_steps_append, h]
  simp [parse_steps, parse_step]

/-- Witness for C6: the reader fails right after the start-document
event, as it does on empty input or on the bytes rendered from
`\x7b\x7d`. -/
theorem claim_C6_witness :
    parse_content ([.ev .startDocument] ++
        .readErr "1:1 Unexpected token inside qualified name: <" :: [])
      = .err (.XmlError "1:1 Unexpected token inside qualified name: <") :=
  claim_C6 "1:1 Unexpected token inside qualified name: <"
    [.ev .startDocument] [] ⟨[], false⟩ (by decide)

/-- C8: for every reader stream on which the reader produces a CData
event (after any benign prefix), `parse_content` panics with the fixed
message — a fatal condition distinct from every recoverable
`ParseError` and from every success — and does not continue parsing. -/
theorem claim_C8 (s : String) (pre rest : List XmlItem) (st2 : ParserState)
    (h : parse_steps pre ⟨[], false⟩ = .cont st2) :
    parse_content (pre ++ .ev (.cdata s) :: rest) = .panic cdataPanicMsg
    ∧ (∀ e : ParseError, parse_content (pre ++ .ev (.cdata s) :: rest) ≠ .err e)
    ∧ (∀ r : WhoisResult, parse_content (pre ++ .ev (.cdata s) :: rest) ≠ .ok r) := by
  have hmain : parse_content (pre ++ .ev (.cdata s) :: rest) = .panic cdataPanicMsg := by
    rw [parse_content, parse_run_eq_steps, parse_steps_append, h]
    simp [parse_steps, parse_step]
  refine ⟨hmain, ?_, ?_⟩
  · intro e hc
    rw [hmain] at hc
    exact POut.noConfusion hc
  · intro r hc
    rw [hmain] at hc
    exact POut.noConfusion hc

/-- Witness for C8: a CData block directly inside the root element. -/
theorem claim_C8_witness :
    parse_content ([.ev .startDocument, .ev (.startElement "nets" [])] ++
        .ev (.cdata "binary") :: [])
      = .panic cdataPanicMsg
    ∧ (∀ e : ParseError,
        parse_content ([.ev .startDocument, .ev (.startElement "nets" [])] ++
          .ev (.cdata "binary") :: []) ≠ .err e)
    ∧ (∀ r : WhoisResult,
        parse_content ([.ev .startDocument, .ev (.startElement "nets" [])] ++
          .ev (.cdata "binary") :: []) ≠ .ok r) :=
  claim_C8 "binary" [.ev .startDocument, .ev (.startElement "nets" [])] []
    ⟨[], false⟩ (by decide)

/-- C10: parsing the same reader stream twice — in particular through
two separately constructed parser instances, as `parse_content` never
reads `self` — yields equal results in content and order: the parse is
a deterministic function of its input with no state across
invocations. -/
theorem claim_C10 (p q : StdWhoisXmlParser) (xml : List XmlItem) :
    p.parse_content xml = q.parse_content xml := rfl

/-- C5 counterexample: a document whose single record has valid start
and end addresses, a limit marker of `"false"`, but no `name`
attribute, makes `parse_content` panic on the `range_name.unwrap()` —
parsing does not succeed, refuting the claim that absence of the name
is a valid, non-error state. -/
theorem claim_C5_counterexample :
    parse_content (namelessDoc "162.125.0.0" "162.125.255.255") = .panic unwrapNoneMsg
    ∧ (parse_content (namelessDoc "162.125.0.0" "162.125.255.255")).isOk = false := by
  constructor <;> decide

/-- C5 (amended): for every well-formed document whose range record has
valid start and end addresses and a limit marker of `"false"` but no
`name` attribute, `parse_content` panics via `Option::unwrap` on the
missing name rather than succeeding: absence of the name attribute is a
fatal panic, not a tolerated non-error state. -/
theorem claim_C5_amended (s e : String) (si ei : IpAddr)
    (hs : ipAddrFromStr s = some si) (he : ipAddrFromStr e = some ei) :
    parse_content (namelessDoc s e) = .panic unwrapNoneMsg := by
  have hn : parse_content_netref (namelessRecordAttrs s e) = .panic unwrapNoneMsg := by
    simp [parse_content_netref, namelessRecordAttrs, netrefLoop, parse_ip, hs, he]
  rw [namelessDoc, parse_content_docWrap, parse_steps_append, steps_limit_false]
  simp only
  simp [namelessRecordEvents, parse_steps, parse_step, hn]

/-- Witness for the amended C5 at the fixture addresses. -/
theorem claim_C5_amended_witness :
    parse_content (namelessDoc "162.125.0.0" "162.125.255.255")
      = .panic unwrapNoneMsg :=
  claim_C5_amended "162.125.0.0" "162.125.255.255"
    (.v4 162 125 0 0) (.v4 162 125 255 255) (by decide) (by decide)

/-- C9: when a `netRef` element lacks one of the `name`,
`startAddress` or `endAddress` attributes (the addresses that are
present decoding successfully), `parse_content_netref` — and hence
`parse_content` on any document reaching such an element — panics via
`unwrap` instead of returning a typed `ParseError`; when all three
attributes are present the unwraps are unreachable (no panic), and
every successfully constructed range has both endpoints present and
successfully decoded from the attributes. -/
theorem claim_C9 :
    (∀ attrs : List Attr,
      (∀ a ∈ attrs, a.local_name ≠ "name") →
      (∀ a ∈ attrs, (a.local_name = "startAddress" ∨ a.local_name = "endAddress") →
        (ipAddrFromStr a.value).isSome) →
      parse_content_netref attrs = .panic unwrapNoneMsg)
    ∧ (∀ attrs : List Attr,
      (∀ a ∈ attrs, a.local_name ≠ "startAddress") →
      (∀ a ∈ attrs, a.local_name = "endAddress" → (ipAddrFromStr a.value).isSome) →
      parse_content_netref attrs = .panic unwrapNoneMsg)
    ∧ (∀ attrs : List Attr,
      (∀ a ∈ attrs, a.local_name ≠ "endAddress") →
      (∀ a ∈ attrs, a.local_name = "startAddress" → (ipAddrFromStr a.value).isSome) →
      parse_content_netref attrs = .panic unwrapNoneMsg)
    ∧ (∀ attrs : List Attr,
      (∃ a ∈ attrs, a.local_name = "name") →
      (∃ a ∈ attrs, a.local_name = "startAddress") →
      (∃ a ∈ attrs, a.local_name = "endAddress") →
      (parse_content_netref attrs).isPanic = false)
    ∧ (∀ (attrs : List Attr) (w : WhoisIpResult),
      parse_content_netref attrs = .ok w →
      (∃ a ∈ attrs, a.local_name = "startAddress" ∧ ipAddrFromStr a.value = some w.start_ip)
      ∧ (∃ a ∈ attrs, a.local_name = "endAddress" ∧ ipAddrFromStr a.value = some w.end_ip))
    ∧ (∀ (pre rest : List XmlItem) (st2 : ParserState) (attrs : List Attr),
      parse_steps pre ⟨[], false⟩ = .cont st2 →
      (∀ a ∈ attrs, a.local_name ≠ "name") →
      (∀ a ∈ attrs, (a.local_name = "startAddress" ∨ a.local_name = "endAddress") →
        (ipAddrFromStr a.value).isSome) →
      parse_content (pre ++ .ev (.startElement "netRef" attrs) :: rest)
        = .panic unwrapNoneMsg) := by
  refine ⟨?_, ?_, ?_, ?_, ?_, ?_⟩
  · intro attrs hn hdec
    exact netrefLoop_no_name attrs none none hn hdec
  · intro attrs hs hdec
    exact netrefLoop_no_start attrs none none hs hdec
  · intro attrs he hdec
    exact netrefLoop_no_end attrs none none he hdec
  · rintro attrs ⟨a1, h1, e1⟩ ⟨a2, h2, e2⟩ ⟨a3, h3, e3⟩
    exact netrefLoop_not_panic attrs none none none
      (Or.inr ⟨a1, h1, e1⟩) (Or.inr ⟨a2, h2, e2⟩) (Or.inr ⟨a3, h3, e3⟩)
  · intro attrs w h
    constructor
    · rcases netrefLoop_ok_start attrs none none none w h with hex | hinit
      · exact hex
      · simp at hinit
    · rcases netrefLoop_ok_end attrs none none none w h with hex | hinit
      · exact hex
      · simp at hinit
  · intro pre rest st2 attrs hpre hn hdec
    rw [parse_content, parse_run_eq_steps, parse_steps_append, hpre]
    simp [parse_steps, parse_step, parse_content_netref,
      netrefLoop_no_name attrs none none hn hdec]

/-- Witness for C9: missing-name, missing-start and missing-end
attribute lists panic; the full fixture attribute list does not panic
and yields a range whose endpoints come from the decoded attributes;
a document reaching a nameless record panics. -/
theorem claim_C9_witness :
    parse_content_netref
        [⟨"endAddress", "162.125.255.255"⟩, ⟨"startAddress", "162.125.0.0"⟩]
      = .panic unwrapNoneMsg
    ∧ parse_content_netref [⟨"name", "DROPB"⟩, ⟨"endAddress", "162.125.255.255"⟩]
      = .panic unwrapNoneMsg
    ∧ parse_content_netref [⟨"name", "DROPB"⟩, ⟨"startAddress", "162.125.0.0"⟩]
      = .panic unwrapNoneMsg
    ∧ (parse_content_netref
        (recordAttrs ⟨"DROPB", "162.125.0.0", "162.125.255.255"⟩)).isPanic = false
    ∧ ((∃ a ∈ recordAttrs ⟨"DROPB", "162.125.0.0", "162.125.255.255"⟩,
          a.local_name = "startAddress"
          ∧ ipAddrFromStr a.value
            = some (WhoisIpResult.mk "DROPB" (.v4 162 125 0 0) (.v4 162 125 255 255)).start_ip)
       ∧ (∃ a ∈ recordAttrs ⟨"DROPB", "162.125.0.0", "162.125.255.255"⟩,
          a.local_name = "endAddress"
          ∧ ipAddrFromStr a.value
            = some (WhoisIpResult.mk "DROPB" (.v4 162 125 0 0) (.v4 162 125 255 255)).end_ip))
    ∧ parse_content ([.ev .startDocument] ++
        .ev (.startElement "netRef"
          [⟨"endAddress", "162.125.255.255"⟩, ⟨"startAddress", "162.125.0.0"⟩]) :: [])
      = .panic unwrapNoneMsg :=
  ⟨claim_C9.1 _ (by decide) (by decide),
   claim_C9.2.1 _ (by decide) (by decide),
   claim_C9.2.2.1 _ (by decide) (by decide),
   claim_C9.2.2.2.1 _ (by decide) (by decide) (by decide),
   claim_C9.2.2.2.2.1 _ (WhoisIpResult.mk "DROPB" (.v4 162 125 0 0) (.v4 162 125 255 255))
     (by decide),
   claim_C9.2.2.2.2.2 [.ev .startDocument] [] ⟨[], false⟩ _
     (by decide) (by decide) (by decide)⟩

/-- C4 counterexample: a transport-level failure and a parse-level
failure both come back from `WhoisCompanyIpsClient::get` as the
identical opaque error string `"Fail"`, so the two stages are not
distinguishable in the returned error — refuting the claim. -/
theorem claim_C4_counterexample :
    WhoisCompanyIpsClient.get (fun _ => .error "connection refused") "DROPB"
      = .err "Fail"
    ∧ WhoisCompanyIpsClient.get (fun _ => .ok (docWrap (limitEvents "true"))) "DROPB"
      = .err "Fail"
    ∧ WhoisCompanyIpsClient.get (fun _ => .error "connection refused") "DROPB"
      = WhoisCompanyIpsClient.get (fun _ => .ok (docWrap (limitEvents "true"))) "DROPB" := by
  refine ⟨rfl, ?_, ?_⟩ <;> rfl

/-- C4 (amended): `WhoisCompanyIpsClient::get` collapses both a
transport/HTTP-layer failure and a parse-layer failure into the same
opaque error string `"Fail"`; the caller cannot tell which stage
failed from the returned error. -/
theorem claim_C4_amended (e : String) (body : List XmlItem)
    (pe : MainRs.ParseError) (company : String)
    (h : MainRs.parse_content body = .err pe) :
    WhoisCompanyIpsClient.get (fun _ => .error e) company = .err "Fail"
    ∧ WhoisCompanyIpsClient.get (fun _ => .ok body) company = .err "Fail" := by
  constructor
  · rfl
  · simp [WhoisCompanyIpsClient.get, h]

/-- Witness for the amended C4: a refused connection and a
limit-exceeded response body. -/
theorem claim_C4_amended_witness :
    WhoisCompanyIpsClient.get (fun _ => .error "connection refused") "DROPB"
      = .err "Fail"
    ∧ WhoisCompanyIpsClient.get (fun _ => .ok (docWrap (limitEvents "true"))) "DROPB"
      = .err "Fail" :=
  claim_C4_amended "connection refused" (docWrap (limitEvents "true"))
    .LimitExceeded "DROPB" (by decide)

/-- C7 counterexample: a 204 No Content response — a successful (2xx)
status — does not yield the body stream: `get_content` compares the
status against exactly `StatusCode::Ok` (200) and returns `HttpError`
for every other status, refuting the claim that any 2xx status yields
the body. -/
theorem claim_C7_counterexample :
    HttpRs.get_content (.ok ⟨204, []⟩)
      = .error (.HttpError "HTTP Error: 204 No Content") := by
  rfl

/-- C7 (amended): `get_content` returns the body stream only for a
response whose status is exactly 200 OK; every other status (including
other 2xx codes) yields `HttpError` carrying the formatted status, and
a transport failure yields the distinct `Unknown` error carrying the
transport diagnostic. -/
theorem claim_C7_amended :
    (∀ r : HttpRs.Response, r.status = 200 → HttpRs.get_content (.ok r) = .ok r)
    ∧ (∀ r : HttpRs.Response, r.status ≠ 200 →
        HttpRs.get_content (.ok r)
          = .error (.HttpError ("HTTP Error: " ++ HttpRs.statusDisplay r.status)))
    ∧ (∀ e : String, HttpRs.get_content (.error e) = .error (.Unknown e)) := by
  refine ⟨?_, ?_, fun e => rfl⟩
  · intro r h
    simp [HttpRs.get_content, h]
  · intro r h
    simp [HttpRs.get_content, h]

/-- Witness for the amended C7 at statuses 200 and 500 and at a
transport timeout. -/
theorem claim_C7_amended_witness :
    HttpRs.get_content (.ok ⟨200, []⟩) = .ok ⟨200, []⟩
    ∧ HttpRs.get_content (.ok ⟨500, []⟩)
      = .error (.HttpError ("HTTP Error: " ++ HttpRs.statusDisplay 500))
    ∧ HttpRs.get_content (.error "timeout") = .error (.Unknown "timeout") :=
  ⟨claim_C7_amended.1 ⟨200, []⟩ rfl,
   claim_C7_amended.2.1 ⟨500, []⟩ (by decide),
   claim_C7_amended.2.2 "timeout"⟩

end WhoisIps
